import Mathlib

/-
Verification development for the retromail letter-sharing service.

The embedding below models the request handlers of api/letters.js
("working version") together with the cleanup routine of the earlier
iterations of the same file.  The persistent store is a list of letter
rows, time is an abstract Nat tick, and the randomness consumed by the
code generator is an explicit stream of draws.  SQL statements become
pure list operations; fallible store calls are modelled by explicit
failure oracles.
-/

namespace RetroMail

/-- A row of the letters table (see sql/schema.sql): id, 6-char code,
subject, content, sender_name, created_at, expires_at, read_count
(default 0) and optional last_read_at. -/
structure Letter where
  id : Nat
  code : String
  subject : String
  content : String
  sender_name : String
  created_at : Nat
  expires_at : Nat
  read_count : Nat
  last_read_at : Option Nat
deriving Repr, DecidableEq

/-- The 36-symbol code alphabet used by generateCode. -/
def chars : String := "ABCDEFGHIJKLMNOPQRSTUVWXYZ0123456789"

/-- JS String.prototype.toUpperCase: uppercase every character. -/
def toUpperCase (s : String) : String := String.mk (s.data.map Char.toUpper)

/-- JS String.prototype.trim: drop whitespace from both ends. -/
def jsTrim (s : String) : String :=
  String.mk (((s.data.dropWhile Char.isWhitespace).reverse.dropWhile
    Char.isWhitespace).reverse)

/-- JS String.prototype.substring(0, n): the first n characters. -/
def takeChars (s : String) (n : Nat) : String := String.mk (s.data.take n)

/-- generateCode from api/letters.js: six independent draws from the
36-symbol alphabet, the draws supplied explicitly. -/
def generateCode (d : Fin 6 → Fin 36) : String :=
  String.mk (List.ofFn (fun i : Fin 6 => chars.data.getD (d i).val 'A'))

/-- The SELECT 1 FROM letters WHERE code = ... existence check. -/
def codeExists (store : List Letter) (code : String) : Bool :=
  store.any (fun l => l.code == code)

/-- Outcome of generateUniqueCode: a fresh code, the exhaustion error
thrown after the attempt budget, or a propagated store error. -/
inductive GenResult where
  | ok (code : String)
  | exhaustion
  | storeErr
deriving Repr, DecidableEq

/-- The do/while body of generateUniqueCode in api/letters.js (working
version).  attempts counts completed attempts; the body runs attempt
number attempts+1 using draw stream index attempts.  A failing
existence check is swallowed unless at least 5 attempts have been made;
a free code breaks out of the loop; the loop runs while attempts < 10,
and after the loop the function throws whenever attempts >= 10. -/
def genAttempts (store : List Letter) (draws : Nat → Fin 6 → Fin 36)
    (checkFails : Nat → Bool) : Nat → Nat → GenResult
  | 0, _ => GenResult.exhaustion
  | fuel + 1, attempts =>
    let code := generateCode (draws attempts)
    let a := attempts + 1
    if checkFails attempts then
      if 5 ≤ a then GenResult.storeErr
      else if a < 10 then genAttempts store draws checkFails fuel a
      else GenResult.exhaustion
    else if codeExists store code then
      if a < 10 then genAttempts store draws checkFails fuel a
      else GenResult.exhaustion
    else if 10 ≤ a then GenResult.exhaustion
    else GenResult.ok code

/-- generateUniqueCode from api/letters.js: the retry loop entered with
attempts = 0; ten units of fuel cover the at most ten body runs. -/
def generateUniqueCode (store : List Letter) (draws : Nat → Fin 6 → Fin 36)
    (checkFails : Nat → Bool) : GenResult :=
  genAttempts store draws checkFails 10 0

/-- The check a single character must pass for the /^[A-Z0-9]{6}$/
regular expression. -/
def isCodeChar (c : Char) : Bool :=
  ('A' ≤ c && c ≤ 'Z') || ('0' ≤ c && c ≤ '9')

/-- The /^[A-Z0-9]{6}$/ test used by the GET and DELETE branches. -/
def validCodeFormat (s : String) : Bool :=
  s.length == 6 && s.data.all isCodeChar

/-- The expiry horizon NOW() + INTERVAL 30 days, in milliseconds as in
the supabase client (30 * 24 * 60 * 60 * 1000). -/
def thirtyDays : Nat := 30 * 24 * 60 * 60 * 1000

/-- cleanSenderName: (senderName or the placeholder for an absent or
empty value).trim().substring(0, 100). -/
def cleanSenderName (senderName : Option String) : String :=
  takeChars
    (jsTrim (match senderName with
      | none => "Anonymous Friend"
      | some s => if s == "" then "Anonymous Friend" else s)) 100

/-- Body of a POST request: subject, content and senderName as
destructured from req.body, each possibly absent. -/
structure CreateReq where
  subject : Option String
  content : Option String
  senderName : Option String
deriving Repr, DecidableEq

/-- The JS test !x?.trim(): true when the field is absent or trims to
the empty string. -/
def isBlank : Option String → Bool
  | none => true
  | some s => jsTrim s == ""

/-- Outcome of the POST branch. -/
inductive CreateResult where
  | created (code : String) (id : Nat)
  | validationError (msg : String)
  | codeExhaustionError
  | storeError
deriving Repr, DecidableEq

/-- The POST branch of api/letters.js (working version): validate,
mint a unique code, derive the sender name, and insert the new row
with created_at = now, expires_at = now + 30 days and the read_count
column default 0.  Returns the handler outcome and the store after the
insert. -/
def createLetter (store : List Letter) (now : Nat) (nextId : Nat)
    (draws : Nat → Fin 6 → Fin 36) (checkFails : Nat → Bool)
    (req : CreateReq) : CreateResult × List Letter :=
  if isBlank req.subject || isBlank req.content then
    (CreateResult.validationError "Subject and content are required", store)
  else
    let subject := req.subject.getD ""
    let content := req.content.getD ""
    if 200 < subject.length then
      (CreateResult.validationError "Subject must be 200 characters or less", store)
    else if 5000 < content.length then
      (CreateResult.validationError "Content must be 5000 characters or less", store)
    else
      match generateUniqueCode store draws checkFails with
      | GenResult.storeErr => (CreateResult.storeError, store)
      | GenResult.exhaustion => (CreateResult.codeExhaustionError, store)
      | GenResult.ok code =>
        let letter : Letter :=
          { id := nextId
            code := code
            subject := jsTrim subject
            content := jsTrim content
            sender_name := cleanSenderName req.senderName
            created_at := now
            expires_at := now + thirtyDays
            read_count := 0
            last_read_at := none }
        (CreateResult.created code nextId, store ++ [letter])

/-- The letter object returned by a successful GET. -/
structure LetterView where
  id : Nat
  code : String
  subject : String
  content : String
  senderName : String
  dateCreated : Nat
  readCount : Nat
  expiresAt : Nat
deriving Repr, DecidableEq

/-- Outcome of the GET branch for a letter lookup. -/
inductive FetchResult where
  | ok (letter : LetterView)
  | validationError (msg : String)
  | notFound
deriving Repr, DecidableEq

/-- The SELECT ... WHERE code = c AND expires_at > NOW() LIMIT 1. -/
def findActive (store : List Letter) (code : String) (now : Nat) : Option Letter :=
  store.find? (fun l => l.code == code && decide (now < l.expires_at))

/-- The UPDATE letters SET read_count = n, last_read_at = NOW()
WHERE id = id. -/
def updateReadCount (store : List Letter) (id : Nat) (n : Nat) (now : Nat) :
    List Letter :=
  store.map (fun l =>
    if l.id == id then { l with read_count := n, last_read_at := some now } else l)

/-- The GET branch of api/letters.js (working version) on the letter
lookup path (stats not requested): require a code, validate its
uppercased form against the regular expression, look up an active
letter under the uppercased code, 404 when none matches, otherwise
answer with the row and read_count + 1 and issue the read-count
update.  The update is fire-and-forget in the source; the pair's second
component is the store once that update has completed. -/
def fetchLetter (store : List Letter) (now : Nat) (code : Option String) :
    FetchResult × List Letter :=
  match code with
  | none => (FetchResult.validationError "Code parameter is required", store)
  | some c =>
    if c == "" then
      (FetchResult.validationError "Code parameter is required", store)
    else if !validCodeFormat (toUpperCase c) then
      (FetchResult.validationError
        "Invalid code format - must be 6 alphanumeric characters", store)
    else
      match findActive store (toUpperCase c) now with
      | none => (FetchResult.notFound, store)
      | some letter =>
        let newReadCount := letter.read_count + 1
        (FetchResult.ok
          { id := letter.id
            code := letter.code
            subject := letter.subject
            content := letter.content
            senderName := letter.sender_name
            dateCreated := letter.created_at
            readCount := newReadCount
            expiresAt := letter.expires_at },
         updateReadCount store letter.id newReadCount now)

/-- Outcome of the DELETE branch. -/
inductive DeleteResult where
  | ok
  | validationError (msg : String)
  | notFound
deriving Repr, DecidableEq

/-- The DELETE branch of api/letters.js (working version): validate the
code, run DELETE ... WHERE code = upper(c) RETURNING id (no expiry
filter), and 404 exactly when no row matched. -/
def deleteLetter (store : List Letter) (code : Option String) :
    DeleteResult × List Letter :=
  match code with
  | none => (DeleteResult.validationError "Valid 6-character code is required", store)
  | some c =>
    if c == "" || !validCodeFormat (toUpperCase c) then
      (DeleteResult.validationError "Valid 6-character code is required", store)
    else
      let remaining := store.filter (fun l => !(l.code == toUpperCase c))
      if store.any (fun l => l.code == toUpperCase c) then
        (DeleteResult.ok, remaining)
      else
        (DeleteResult.notFound, remaining)

/-- The DELETE FROM letters WHERE expires_at < NOW() statement issued
by cleanupExpiredLetters, with an explicit failure oracle for the
store call. -/
def sqlDeleteExpired (store : List Letter) (now : Nat) (fails : Bool) :
    Except String (List Letter) :=
  if fails then Except.error "store error"
  else Except.ok (store.filter (fun l => !decide (l.expires_at < now)))

/-- cleanupExpiredLetters from api/letters.js (Vercel-Postgres
iteration): delete every expired row inside a try/catch whose catch
only logs, so the caller always gets a normal return carrying the
resulting store. -/
def cleanupExpiredLetters (store : List Letter) (now : Nat) (fails : Bool) :
    Except String (List Letter) :=
  match sqlDeleteExpired store now fails with
  | Except.ok cleaned => Except.ok cleaned
  | Except.error _ => Except.ok store

/-- The success condition of the POST validation, read off the claim:
both fields present and non-blank after trimming, subject at most 200
characters, content at most 5000 characters. -/
def createValid (req : CreateReq) : Bool :=
  !isBlank req.subject && !isBlank req.content &&
    (req.subject.getD "").length ≤ 200 && (req.content.getD "").length ≤ 5000


/-- Every entry of the code alphabet passes the character test and is a
fixed point of uppercasing. -/
lemma chars_entry_ok : ∀ m : Fin 36,
    isCodeChar (chars.data.getD m.val 'A') = true ∧
    Char.toUpper (chars.data.getD m.val 'A') = chars.data.getD m.val 'A' := by decide

/-- Generated codes always match the /^[A-Z0-9]{6}$/ test. -/
lemma generateCode_valid (d : Fin 6 → Fin 36) :
    validCodeFormat (generateCode d) = true := by
  unfold validCodeFormat generateCode
  rw [Bool.and_eq_true]
  constructor
  · show ((List.ofFn _).length == 6) = true
    rw [List.length_ofFn]
    rfl
  · rw [List.all_eq_true]
    intro x hx
    have hx' : x ∈ List.ofFn (fun i : Fin 6 => chars.data.getD (d i).val 'A') := hx
    rcases (List.mem_ofFn _ _).1 hx' with ⟨i, rfl⟩
    exact (chars_entry_ok (d i)).1

/-- Generated codes are already uppercase. -/
lemma generateCode_toUpper (d : Fin 6 → Fin 36) :
    toUpperCase (generateCode d) = generateCode d := by
  unfold toUpperCase generateCode
  congr 1
  show List.map Char.toUpper (List.ofFn fun i : Fin 6 => chars.data.getD (d i).val 'A') = _
  refine (List.map_congr_left ?_).trans (List.map_id _)
  intro x hx
  rcases (List.mem_ofFn _ _).1 hx with ⟨i, rfl⟩
  exact (chars_entry_ok (d i)).2

/-- Generated codes are nonempty (they have six characters). -/
lemma generateCode_ne_empty (d : Fin 6 → Fin 36) : generateCode d ≠ "" := by
  intro h
  have h6 : (generateCode d).length = 6 := by
    show (List.ofFn _).length = 6
    rw [List.length_ofFn]
  rw [h] at h6
  exact absurd h6 (by decide)

/-- When the existence checks never error, the loop returns as soon as
an attempt with index at most 8 (attempt number at most 9) draws a
code that is absent from the store. -/
lemma genAttempts_ok_of_free (store : List Letter) (draws : Nat → Fin 6 → Fin 36)
    (k : Nat) (hk : k ≤ 8)
    (hcoll : ∀ j, j < k → codeExists store (generateCode (draws j)) = true)
    (hfree : codeExists store (generateCode (draws k)) = false) :
    ∀ fuel attempts, attempts + fuel = 10 → attempts ≤ k →
      genAttempts store draws (fun _ => false) fuel attempts =
        GenResult.ok (generateCode (draws k)) := by
  intro fuel
  induction fuel with
  | zero => intro attempts h10 hak; omega
  | succ n ih =>
    intro attempts h10 hak
    by_cases hek : attempts = k
    · subst hek
      have h10' : ¬ (10 ≤ attempts + 1) := by omega
      simp [genAttempts, hfree, h10']
    · have hlt : attempts < k := Nat.lt_of_le_of_ne hak hek
      have hc := hcoll attempts hlt
      have hlt10 : attempts + 1 < 10 := by omega
      have hrec := ih (attempts + 1) (by omega) (by omega)
      simp [genAttempts, hc, hlt10, hrec]

/-- When the existence checks never error and the first nine attempts
all collide, the loop ends in exhaustion, whatever the tenth draw is. -/
lemma genAttempts_exhaustion (store : List Letter) (draws : Nat → Fin 6 → Fin 36)
    (hcoll : ∀ k, k ≤ 8 → codeExists store (generateCode (draws k)) = true) :
    ∀ fuel attempts, attempts + fuel = 10 → attempts ≤ 9 →
      genAttempts store draws (fun _ => false) fuel attempts =
        GenResult.exhaustion := by
  intro fuel
  induction fuel with
  | zero => intro attempts h10 ha9; omega
  | succ n ih =>
    intro attempts h10 ha9
    by_cases he : attempts = 9
    · subst he
      by_cases hx : codeExists store (generateCode (draws 9)) = true
      · simp [genAttempts, hx]
      · have hx' : codeExists store (generateCode (draws 9)) = false :=
          Bool.not_eq_true _ ▸ hx
        simp [genAttempts, hx']
    · have hlt : attempts < 9 := Nat.lt_of_le_of_ne ha9 he
      have hc := hcoll attempts (by omega)
      have hlt10 : attempts + 1 < 10 := by omega
      have hrec := ih (attempts + 1) (by omega) (by omega)
      simp [genAttempts, hc, hlt10, hrec]

/-- C1, amended part: with error-free existence checks, the first free
draw is returned when it happens among the first nine attempts, and
nine initial collisions force the exhaustion error no matter what the
tenth attempt draws. -/
theorem generateUnique_budget (store : List Letter) (draws : Nat → Fin 6 → Fin 36) :
    (∀ k, k ≤ 8 →
      (∀ j, j < k → codeExists store (generateCode (draws j)) = true) →
      codeExists store (generateCode (draws k)) = false →
      generateUniqueCode store draws (fun _ => false) =
        GenResult.ok (generateCode (draws k))) ∧
    ((∀ k, k ≤ 8 → codeExists store (generateCode (draws k)) = true) →
      generateUniqueCode store draws (fun _ => false) = GenResult.exhaustion) := by
  constructor
  · intro k hk hcoll hfree
    exact genAttempts_ok_of_free store draws k hk hcoll hfree 10 0 rfl (Nat.zero_le _)
  · intro hcoll
    exact genAttempts_exhaustion store draws hcoll 10 0 rfl (by omega)

/-- A store already holding the code AAAAAA. -/
def cexLetter : Letter :=
  { id := 1, code := "AAAAAA", subject := "s", content := "c",
    sender_name := "n", created_at := 0, expires_at := 100,
    read_count := 0, last_read_at := none }

/-- Draw stream whose first nine attempts draw AAAAAA (which the store
holds) and whose tenth attempt draws BBBBBB (which it does not). -/
def cexDraws : Nat → Fin 6 → Fin 36 := fun n _ => if n ≤ 8 then 0 else 1

/-- C1, counterexample: in this run the tenth attempt draws BBBBBB,
a code with no existing match in the store, yet generateUniqueCode
throws the exhaustion error instead of returning that code, because
the post-loop check attempts greater or equal 10 also fires on a break
taken during the tenth iteration. -/
theorem generateUnique_tenth_attempt_lost :
    codeExists [cexLetter] (generateCode (cexDraws 9)) = false ∧
    generateUniqueCode [cexLetter] cexDraws (fun _ => false) =
      GenResult.exhaustion := by
  constructor
  · decide
  · decide

/-- C1, witness for the amended theorem: on an empty store the very
first draw is free and is returned. -/
theorem generateUnique_budget_witness :
    codeExists [] (generateCode ((fun _ _ => (0 : Fin 36)) 0)) = false ∧
    generateUniqueCode [] (fun _ _ => (0 : Fin 36)) (fun _ => false) =
      GenResult.ok (generateCode ((fun _ _ => (0 : Fin 36)) 0)) :=
  ⟨by decide,
    (generateUnique_budget [] (fun _ _ => (0 : Fin 36))).1 0 (by omega)
      (fun j hj => absurd hj (by omega)) (by decide)⟩

/-- When the first check failures all happen while fewer than five
attempts are complete, they are swallowed and the loop goes on to a
fresh attempt; a later free draw is returned as usual. -/
lemma genAttempts_swallow (store : List Letter) (draws : Nat → Fin 6 → Fin 36)
    (checkFails : Nat → Bool) (j : Nat) (hj : j < 5)
    (hpre : ∀ i, i < j → checkFails i = true)
    (hjf : checkFails j = false)
    (hfree : codeExists store (generateCode (draws j)) = false) :
    ∀ fuel attempts, attempts + fuel = 10 → attempts ≤ j →
      genAttempts store draws checkFails fuel attempts =
        GenResult.ok (generateCode (draws j)) := by
  intro fuel
  induction fuel with
  | zero => intro attempts h10 haj; omega
  | succ n ih =>
    intro attempts h10 haj
    by_cases hej : attempts = j
    · subst hej
      have h10' : ¬ (10 ≤ attempts + 1) := by omega
      simp [genAttempts, hjf, hfree, h10']
    · have hlt : attempts < j := Nat.lt_of_le_of_ne haj hej
      have hc := hpre attempts hlt
      have h5 : ¬ (5 ≤ attempts + 1) := by omega
      have hlt10 : attempts + 1 < 10 := by omega
      have hrec := ih (attempts + 1) (by omega) (by omega)
      simp [genAttempts, hc, h5, hlt10, hrec]

/-- A check failure on the fifth attempt is propagated once the first
four attempts also failed their checks. -/
lemma genAttempts_propagate (store : List Letter) (draws : Nat → Fin 6 → Fin 36)
    (checkFails : Nat → Bool)
    (hpre : ∀ i, i ≤ 4 → checkFails i = true) :
    ∀ fuel attempts, attempts + fuel = 10 → attempts ≤ 4 →
      genAttempts store draws checkFails fuel attempts = GenResult.storeErr := by
  intro fuel
  induction fuel with
  | zero => intro attempts h10 ha4; omega
  | succ n ih =>
    intro attempts h10 ha4
    by_cases he : attempts = 4
    · subst he
      have hc := hpre 4 (by omega)
      simp [genAttempts, hc]
    · have hlt : attempts < 4 := Nat.lt_of_le_of_ne ha4 he
      have hc := hpre attempts (by omega)
      have h5 : ¬ (5 ≤ attempts + 1) := by omega
      have hlt10 : attempts + 1 < 10 := by omega
      have hrec := ih (attempts + 1) (by omega) (by omega)
      simp [genAttempts, hc, h5, hlt10, hrec]

/-- C10: a failing existence check is swallowed and the loop retries
while fewer than five attempts are complete, so an early transient
store failure still lets a later free draw be returned; from the fifth
attempt onward a failing check is propagated as a store error. -/
theorem generateUnique_error_swallow_policy (store : List Letter)
    (draws : Nat → Fin 6 → Fin 36) (checkFails : Nat → Bool) (j : Nat)
    (hpre : ∀ i, i < j → checkFails i = true) :
    (j < 5 → checkFails j = false →
      codeExists store (generateCode (draws j)) = false →
      generateUniqueCode store draws checkFails =
        GenResult.ok (generateCode (draws j))) ∧
    (5 ≤ j → generateUniqueCode store draws checkFails = GenResult.storeErr) := by
  constructor
  · intro hj hjf hfree
    exact genAttempts_swallow store draws checkFails j hj hpre hjf hfree 10 0 rfl
      (Nat.zero_le _)
  · intro hj
    exact genAttempts_propagate store draws checkFails
      (fun i hi => hpre i (by omega)) 10 0 rfl (by omega)

/-- C10, witness: checks fail on the first two attempts only; the
third attempt draws a free code and it is returned. -/
theorem generateUnique_error_swallow_witness :
    (2 : Nat) < 5 ∧
    generateUniqueCode [] (fun _ _ => (0 : Fin 36)) (fun i => decide (i < 2)) =
      GenResult.ok (generateCode ((fun _ _ => (0 : Fin 36)) 2)) :=
  ⟨by omega,
    (generateUnique_error_swallow_policy [] (fun _ _ => (0 : Fin 36))
        (fun i => decide (i < 2)) 2
        (fun i hi => by simpa using hi)).1 (by omega) (by decide) (by decide)⟩

/-- Whether a fetch outcome is a validation rejection. -/
def isFetchInvalid : FetchResult → Bool
  | FetchResult.validationError _ => true
  | _ => false

/-- The read count reported by a successful fetch, none otherwise. -/
def fetchedReadCount : FetchResult → Option Nat
  | FetchResult.ok v => some v.readCount
  | _ => none

/-- On a nonempty code that passes the format test, the GET branch is
the lookup under the uppercased code. -/
lemma fetchLetter_some (store : List Letter) (now : Nat) (c : String)
    (hc : c ≠ "") (hvf : validCodeFormat (toUpperCase c) = true) :
    fetchLetter store now (some c) =
      match findActive store (toUpperCase c) now with
      | none => (FetchResult.notFound, store)
      | some letter =>
        (FetchResult.ok
          { id := letter.id, code := letter.code, subject := letter.subject,
            content := letter.content, senderName := letter.sender_name,
            dateCreated := letter.created_at, readCount := letter.read_count + 1,
            expiresAt := letter.expires_at },
         updateReadCount store letter.id (letter.read_count + 1) now) := by
  have hce : (c == "") = false := beq_eq_false_iff_ne.2 hc
  simp [fetchLetter, hce, hvf]

/-- On a nonempty code failing the format test, the GET branch rejects. -/
lemma fetchLetter_some_invalid (store : List Letter) (now : Nat) (c : String)
    (hc : c ≠ "") (hvf : validCodeFormat (toUpperCase c) = false) :
    fetchLetter store now (some c) =
      (FetchResult.validationError
        "Invalid code format - must be 6 alphanumeric characters", store) := by
  have hce : (c == "") = false := beq_eq_false_iff_ne.2 hc
  simp [fetchLetter, hce, hvf]

/-- C7: the GET branch rejects with a validation error exactly when the
uppercased code fails the /^[A-Z0-9]{6}$/ test, and the whole outcome
only depends on the uppercased code, so a lowercase code retrieves the
same letter as its uppercase form. -/
theorem fetch_code_validation (store : List Letter) (now : Nat) :
    (∀ c : String,
      isFetchInvalid (fetchLetter store now (some c)).1 = true ↔
        validCodeFormat (toUpperCase c) = false) ∧
    (∀ a b : String, a ≠ "" → b ≠ "" → toUpperCase a = toUpperCase b →
      fetchLetter store now (some a) = fetchLetter store now (some b)) := by
  constructor
  · intro c
    by_cases hc : c = ""
    · subst hc
      constructor
      · intro _
        decide
      · intro _
        rfl
    · cases hvf : validCodeFormat (toUpperCase c) with
      | false =>
        constructor
        · intro _
          rfl
        · intro _
          rw [fetchLetter_some_invalid store now c hc hvf]
          rfl
      | true =>
        constructor
        · intro hbad
          rw [fetchLetter_some store now c hc hvf] at hbad
          cases hfind : findActive store (toUpperCase c) now <;>
            rw [hfind] at hbad <;> exact absurd hbad (by simp [isFetchInvalid])
        · intro hfalse
          simp [hvf] at hfalse
  · intro a b ha hb hab
    cases hvf : validCodeFormat (toUpperCase b) with
    | false =>
      rw [fetchLetter_some_invalid store now a ha (by rw [hab, hvf]),
        fetchLetter_some_invalid store now b hb hvf]
    | true =>
      rw [fetchLetter_some store now a ha (by rw [hab, hvf]),
        fetchLetter_some store now b hb hvf, hab]

/-- C7, witness: a lowercase code behaves like its uppercase form, and
a malformed code is rejected. -/
theorem fetch_code_validation_witness :
    toUpperCase "abc123" = toUpperCase "ABC123" ∧
    fetchLetter [] 0 (some "abc123") = fetchLetter [] 0 (some "ABC123") ∧
    (isFetchInvalid (fetchLetter [] 0 (some "ab!123")).1 = true ↔
      validCodeFormat (toUpperCase "ab!123") = false) :=
  ⟨by decide,
    (fetch_code_validation [] 0).2 "abc123" "ABC123" (by decide) (by decide)
      (by decide),
    (fetch_code_validation [] 0).1 "ab!123"⟩

/-- A stored letter whose expiry lies in the past of the probes below. -/
def expiredL : Letter :=
  { id := 1, code := "AAAAAA", subject := "old", content := "old body",
    sender_name := "Old", created_at := 0, expires_at := 5,
    read_count := 2, last_read_at := none }

/-- A stored letter whose expiry lies in the future of the probes below. -/
def activeL : Letter :=
  { id := 2, code := "BBBBBB", subject := "new", content := "new body",
    sender_name := "New", created_at := 0, expires_at := 99,
    read_count := 0, last_read_at := none }

/-- C3: with a well-formed code, the GET branch answers NotFound
exactly when no stored letter carries the uppercased code together
with an expiry strictly after now; an expired letter and an absent
code therefore yield the identical outcome. -/
theorem fetch_notFound_iff (store : List Letter) (now : Nat) (c : String)
    (hc : c ≠ "") (hvf : validCodeFormat (toUpperCase c) = true) :
    (fetchLetter store now (some c)).1 = FetchResult.notFound ↔
      ∀ l ∈ store, ¬ (l.code = toUpperCase c ∧ now < l.expires_at) := by
  rw [fetchLetter_some store now c hc hvf]
  cases hfind : findActive store (toUpperCase c) now with
  | none =>
    constructor
    · intro _ l hl hcontra
      have hnp := List.find?_eq_none.1 hfind l hl
      apply hnp
      rw [Bool.and_eq_true]
      exact ⟨beq_iff_eq.2 hcontra.1, decide_eq_true hcontra.2⟩
    · intro _
      rfl
  | some letter =>
    constructor
    · intro hbad
      exact absurd hbad (by simp)
    · intro hall
      exfalso
      have hp := List.find?_some hfind
      have hmem := List.mem_of_find?_eq_some hfind
      rw [Bool.and_eq_true] at hp
      exact hall letter hmem ⟨beq_iff_eq.1 hp.1, of_decide_eq_true hp.2⟩

/-- C3, witness: fetching the code of an expired letter is NotFound,
exactly like a code that never existed. -/
theorem fetch_notFound_iff_witness :
    (fetchLetter [expiredL] 10 (some "aaaaaa")).1 = FetchResult.notFound ∧
    (fetchLetter [expiredL] 10 (some "CCCCCC")).1 = FetchResult.notFound :=
  ⟨(fetch_notFound_iff [expiredL] 10 "aaaaaa" (by decide) (by decide)).2
      (by decide),
   (fetch_notFound_iff [expiredL] 10 "CCCCCC" (by decide) (by decide)).2
      (by decide)⟩

/-- Whether a create outcome is a validation rejection. -/
def isValidationFailure : CreateResult → Bool
  | CreateResult.validationError _ => true
  | _ => false

/-- When validation passes, the checks never error and the first draw
is free, the POST branch inserts the fully determined new row. -/
lemma createLetter_success (store : List Letter) (now nextId : Nat)
    (draws : Nat → Fin 6 → Fin 36) (req : CreateReq)
    (hfree : codeExists store (generateCode (draws 0)) = false)
    (hvalid : createValid req = true) :
    createLetter store now nextId draws (fun _ => false) req =
      (CreateResult.created (generateCode (draws 0)) nextId,
       store ++
         [{ id := nextId
            code := generateCode (draws 0)
            subject := jsTrim (req.subject.getD "")
            content := jsTrim (req.content.getD "")
            sender_name := cleanSenderName req.senderName
            created_at := now
            expires_at := now + thirtyDays
            read_count := 0
            last_read_at := none }]) := by
  have h := hvalid
  simp only [createValid, Bool.and_eq_true, Bool.not_eq_true',
    decide_eq_true_eq] at h
  obtain ⟨⟨⟨hs, hcnt⟩, h200⟩, h5000⟩ := h
  have hgen : generateUniqueCode store draws (fun _ => false) =
      GenResult.ok (generateCode (draws 0)) := by
    unfold generateUniqueCode
    exact genAttempts_ok_of_free store draws 0 (by omega)
      (fun j hj => absurd hj (by omega)) hfree 10 0 rfl (by omega)
  simp [createLetter, hs, hcnt, Nat.not_lt.2 h200, Nat.not_lt.2 h5000, hgen]

/-- C2: with the store checks healthy and the first draw unused,
create succeeds exactly when subject and content are non-blank after
trimming and within the 200/5000 length bounds; success returns a
6-character code over [A-Z0-9], and any violation is a validation
error. -/
theorem create_validation (store : List Letter) (now nextId : Nat)
    (draws : Nat → Fin 6 → Fin 36) (req : CreateReq)
    (hfree : codeExists store (generateCode (draws 0)) = false) :
    (createValid req = true →
      (createLetter store now nextId draws (fun _ => false) req).1 =
        CreateResult.created (generateCode (draws 0)) nextId ∧
      validCodeFormat (generateCode (draws 0)) = true) ∧
    (createValid req = false →
      isValidationFailure
        (createLetter store now nextId draws (fun _ => false) req).1 = true) := by
  constructor
  · intro hvalid
    rw [createLetter_success store now nextId draws req hfree hvalid]
    exact ⟨rfl, generateCode_valid _⟩
  · intro hinvalid
    by_cases hb : (isBlank req.subject || isBlank req.content) = true
    · simp [createLetter, hb, isValidationFailure]
    · have hb' : (isBlank req.subject || isBlank req.content) = false := by
        cases h : (isBlank req.subject || isBlank req.content)
        · rfl
        · exact absurd h hb
      rw [Bool.or_eq_false_iff] at hb'
      by_cases h200 : 200 < (req.subject.getD "").length
      · simp [createLetter, hb'.1, hb'.2, h200, isValidationFailure]
      · by_cases h5000 : 5000 < (req.content.getD "").length
        · simp [createLetter, hb'.1, hb'.2, h200, h5000, isValidationFailure]
        · have hv : createValid req = true := by
            simp [createValid, hb'.1, hb'.2, Nat.not_lt.1 h200,
              Nat.not_lt.1 h5000]
          rw [hinvalid] at hv
          exact absurd hv (by simp)

/-- C2, witness: a small valid request succeeds with the first drawn
code, and a whitespace-only subject is rejected. -/
theorem create_validation_witness :
    createValid { subject := some "Hi", content := some "Hello", senderName := none } = true ∧
    (createLetter [] 0 1 (fun _ _ => (0 : Fin 36)) (fun _ => false)
        { subject := some "Hi", content := some "Hello", senderName := none }).1 =
      CreateResult.created (generateCode ((fun _ _ => (0 : Fin 36)) 0)) 1 ∧
    isValidationFailure
      (createLetter [] 0 1 (fun _ _ => (0 : Fin 36)) (fun _ => false)
        { subject := some "  ", content := some "Hello", senderName := none }).1 = true :=
  ⟨by decide,
    ((create_validation [] 0 1 (fun _ _ => (0 : Fin 36))
        { subject := some "Hi", content := some "Hello", senderName := none }
        (by decide)).1 (by decide)).1,
    (create_validation [] 0 1 (fun _ _ => (0 : Fin 36))
        { subject := some "  ", content := some "Hello", senderName := none }
        (by decide)).2 (by decide)⟩

/-- C6 (amended): on a successful create the stored sender_name is the
trimmed senderName truncated to 100 characters; the placeholder is
used exactly when the field is absent or the empty string, so a
whitespace-only value is stored as the empty string, not the
placeholder. -/
theorem create_senderName (store : List Letter) (now nextId : Nat)
    (draws : Nat → Fin 6 → Fin 36) (req : CreateReq)
    (hfree : codeExists store (generateCode (draws 0)) = false)
    (hvalid : createValid req = true) :
    ((createLetter store now nextId draws (fun _ => false) req).2.getLast?).map
        Letter.sender_name = some (cleanSenderName req.senderName) ∧
    (req.senderName = none ∨ req.senderName = some "" →
      cleanSenderName req.senderName = "Anonymous Friend") ∧
    (∀ x : String, req.senderName = some x → x ≠ "" →
      cleanSenderName req.senderName = takeChars (jsTrim x) 100) := by
  refine ⟨?_, ?_, ?_⟩
  · rw [createLetter_success store now nextId draws req hfree hvalid]
    simp [List.getLast?_concat]
  · rintro (h | h) <;> rw [h] <;> decide
  · intro x hx hne
    rw [hx]
    simp [cleanSenderName, hne]

/-- C6, counterexample: a whitespace-only senderName is a truthy value
in the source, so it is trimmed to the empty string and stored as
such, not replaced by the Anonymous Friend placeholder. -/
theorem create_senderName_whitespace :
    ((createLetter [] 0 1 (fun _ _ => (0 : Fin 36)) (fun _ => false)
        { subject := some "Hi", content := some "Yo", senderName := some "   " }).2.getLast?).map
      Letter.sender_name = some "" ∧
    some ("" : String) ≠ some ("Anonymous Friend" : String) := by
  constructor
  · decide
  · decide

/-- C6, witness: omitting senderName stores the placeholder. -/
theorem create_senderName_witness :
    createValid { subject := some "Hi", content := some "Yo", senderName := none } = true ∧
    ((createLetter [] 0 1 (fun _ _ => (0 : Fin 36)) (fun _ => false)
        { subject := some "Hi", content := some "Yo", senderName := none }).2.getLast?).map
      Letter.sender_name = some (cleanSenderName none) ∧
    cleanSenderName (none : Option String) = "Anonymous Friend" :=
  ⟨by decide,
    (create_senderName [] 0 1 (fun _ _ => (0 : Fin 36))
        { subject := some "Hi", content := some "Yo", senderName := none }
        (by decide) (by decide)).1,
    (create_senderName [] 0 1 (fun _ _ => (0 : Fin 36))
        { subject := some "Hi", content := some "Yo", senderName := none }
        (by decide) (by decide)).2.1 (Or.inl rfl)⟩

/-- C8: cleanupExpiredLetters always returns normally to its caller;
when the underlying delete succeeds the resulting store is the old one
with exactly the letters whose expiry is strictly before now removed,
so every expired letter is gone and every other letter is kept
unchanged, and when the delete fails the error is swallowed and the
store is left as it was. -/
theorem cleanup_never_raises (store : List Letter) (now : Nat) (fails : Bool) :
    cleanupExpiredLetters store now fails =
      Except.ok (if fails then store
        else store.filter (fun l => !decide (l.expires_at < now))) ∧
    (∀ l ∈ store, l.expires_at < now →
      l ∉ store.filter (fun l => !decide (l.expires_at < now))) ∧
    (∀ l ∈ store, ¬ l.expires_at < now →
      l ∈ store.filter (fun l => !decide (l.expires_at < now))) := by
  refine ⟨?_, ?_, ?_⟩
  · cases fails <;> rfl
  · intro l _ hexp hmem
    rcases List.mem_filter.1 hmem with ⟨_, hkeep⟩
    rw [Bool.not_eq_true', decide_eq_false_iff_not] at hkeep
    exact hkeep hexp
  · intro l hl hact
    exact List.mem_filter.2 ⟨hl, by simp [hact]⟩

/-- C8, witness: with one expired and one active letter the cleanup
deletes exactly the expired one, and a failing delete leaves the store
untouched while still returning normally. -/
theorem cleanup_never_raises_witness :
    cleanupExpiredLetters [expiredL, activeL] 10 false =
      Except.ok [activeL] ∧
    cleanupExpiredLetters [expiredL, activeL] 10 true =
      Except.ok [expiredL, activeL] ∧
    expiredL ∉ List.filter (fun l => !decide (l.expires_at < 10)) [expiredL, activeL] ∧
    activeL ∈ List.filter (fun l => !decide (l.expires_at < 10)) [expiredL, activeL] :=
  ⟨by rw [(cleanup_never_raises [expiredL, activeL] 10 false).1]; rfl,
   by rw [(cleanup_never_raises [expiredL, activeL] 10 true).1]; rfl,
   (cleanup_never_raises [expiredL, activeL] 10 false).2.1 expiredL
     (by decide) (by decide),
   (cleanup_never_raises [expiredL, activeL] 10 false).2.2 activeL
     (by decide) (by decide)⟩

/-- C9: with a well-formed code the DELETE branch removes every stored
letter carrying the uppercased code, active or expired alike, leaving
all other letters in place; it reports success exactly when some such
letter existed and NotFound exactly when none did. -/
theorem delete_by_code (store : List Letter) (c : String) (hc : c ≠ "")
    (hvf : validCodeFormat (toUpperCase c) = true) :
    ((deleteLetter store (some c)).1 = DeleteResult.notFound ↔
      ∀ l ∈ store, l.code ≠ toUpperCase c) ∧
    ((deleteLetter store (some c)).1 = DeleteResult.ok ↔
      ∃ l ∈ store, l.code = toUpperCase c) ∧
    (deleteLetter store (some c)).2 =
      store.filter (fun l => !(l.code == toUpperCase c)) := by
  have hce : (c == "") = false := beq_eq_false_iff_ne.2 hc
  have hform : (c == "" || !validCodeFormat (toUpperCase c)) = false := by
    rw [hce, hvf]
    rfl
  cases hany : store.any (fun l => l.code == toUpperCase c) with
  | true =>
    have heq : deleteLetter store (some c) =
        (DeleteResult.ok, store.filter (fun l => !(l.code == toUpperCase c))) := by
      simp [deleteLetter, hce, hvf, hany]
    rw [heq]
    refine ⟨⟨fun hbad => absurd hbad (by simp), fun hall => ?_⟩, ?_, rfl⟩
    · exfalso
      rcases List.any_eq_true.1 hany with ⟨l, hl, hcode⟩
      exact hall l hl (beq_iff_eq.1 hcode)
    · constructor
      · intro _
        rcases List.any_eq_true.1 hany with ⟨l, hl, hcode⟩
        exact ⟨l, hl, beq_iff_eq.1 hcode⟩
      · intro _
        rfl
  | false =>
    have heq : deleteLetter store (some c) =
        (DeleteResult.notFound, store.filter (fun l => !(l.code == toUpperCase c))) := by
      simp [deleteLetter, hce, hvf, hany]
    rw [heq]
    refine ⟨⟨fun _ l hl hll =>
      (List.any_eq_false.1 hany l hl) (beq_iff_eq.2 hll), fun _ => rfl⟩, ?_, rfl⟩
    · constructor
      · intro hbad
        exact absurd hbad (by simp)
      · rintro ⟨l, hl, hcode⟩
        exfalso
        exact (List.any_eq_false.1 hany) l hl (by simp [hcode])

/-- C9, witness: deleting an expired letter by its lowercase code
succeeds and empties the store. -/
theorem delete_by_code_witness :
    (deleteLetter [expiredL] (some "aaaaaa")).1 = DeleteResult.ok ∧
    (deleteLetter [expiredL] (some "aaaaaa")).2 = [] :=
  ⟨(delete_by_code [expiredL] "aaaaaa" (by decide) (by decide)).2.1.2
      ⟨expiredL, by decide, by decide⟩,
   ((delete_by_code [expiredL] "aaaaaa" (by decide) (by decide)).2.2).trans
      (by decide)⟩

/-- When the lookup finds a letter, the GET branch answers with that
letter and its read count plus one, issuing the read-count update. -/
lemma fetchLetter_found (store : List Letter) (now : Nat) (c : String)
    (hc : c ≠ "") (hvf : validCodeFormat (toUpperCase c) = true) (lt : Letter)
    (hfind : findActive store (toUpperCase c) now = some lt) :
    fetchLetter store now (some c) =
      (FetchResult.ok
        { id := lt.id
          code := lt.code
          subject := lt.subject
          content := lt.content
          senderName := lt.sender_name
          dateCreated := lt.created_at
          readCount := lt.read_count + 1
          expiresAt := lt.expires_at },
       updateReadCount store lt.id (lt.read_count + 1) now) := by
  rw [fetchLetter_some store now c hc hvf, hfind]

/-- A fetch of the head letter when it matches the uppercased code and
is active: the response carries its read count plus one, and the
completed update bumps the head and leaves the tail untouched. -/
lemma fetch_head_step (now : Nat) (c : String) (lt : Letter) (rest : List Letter)
    (hc : c ≠ "") (hvf : validCodeFormat (toUpperCase c) = true)
    (hcode : lt.code = toUpperCase c) (hact : now < lt.expires_at)
    (hid : ∀ l ∈ rest, l.id ≠ lt.id) :
    fetchLetter (lt :: rest) now (some c) =
      (FetchResult.ok
        { id := lt.id
          code := lt.code
          subject := lt.subject
          content := lt.content
          senderName := lt.sender_name
          dateCreated := lt.created_at
          readCount := lt.read_count + 1
          expiresAt := lt.expires_at },
       { lt with read_count := lt.read_count + 1,
                 last_read_at := some now } :: rest) := by
  have hfind : findActive (lt :: rest) (toUpperCase c) now = some lt := by
    unfold findActive
    apply List.find?_cons_of_pos
    simp [hcode, hact]
  rw [fetchLetter_found (lt :: rest) now c hc hvf lt hfind]
  congr 1
  unfold updateReadCount
  rw [List.map_cons, if_pos (by simp : (lt.id == lt.id) = true)]
  congr 1
  refine (List.map_congr_left ?_).trans (List.map_id _)
  intro l hl
  rw [if_neg (by simp [hid l hl])]
  rfl

/-- Repeated sequential fetches, each read-count update completing
before the next fetch starts. -/
def fetchTimes (now : Nat) (code : Option String) : Nat → List Letter → List Letter
  | 0, store => store
  | n + 1, store => fetchTimes now code n (fetchLetter store now code).2

/-- After n sequential fetches the head letter has absorbed n reads
and the tail of the store is untouched. -/
lemma fetchTimes_head (now : Nat) (c : String) (hc : c ≠ "")
    (hvf : validCodeFormat (toUpperCase c) = true) :
    ∀ (n : Nat) (lt : Letter) (rest : List Letter),
      lt.code = toUpperCase c → now < lt.expires_at →
      (∀ l ∈ rest, l.id ≠ lt.id) →
      ∃ lt', fetchTimes now (some c) n (lt :: rest) = lt' :: rest ∧
        lt'.code = lt.code ∧ lt'.expires_at = lt.expires_at ∧
        lt'.id = lt.id ∧ lt'.read_count = lt.read_count + n := by
  intro n
  induction n with
  | zero =>
    intro lt rest hcode hact hid
    exact ⟨lt, rfl, rfl, rfl, rfl, rfl⟩
  | succ m ih =>
    intro lt rest hcode hact hid
    have hstep := fetch_head_step now c lt rest hc hvf hcode hact hid
    rcases ih { lt with read_count := lt.read_count + 1, last_read_at := some now }
        rest hcode hact hid with ⟨lt', h1, h2, h3, h4, h5⟩
    refine ⟨lt', ?_, h2, h3, h4, by simp at h5; omega⟩
    show fetchTimes now (some c) m (fetchLetter (lt :: rest) now (some c)).2 = lt' :: rest
    rw [hstep]
    exact h1

/-- C4: a successful fetch reports the stored read count plus one, and
fetching an initially unread active letter N times sequentially (N at
least 1, each read-count update completing before the next fetch)
reports read count N on the N-th fetch. -/
theorem fetch_read_counts (now : Nat) (c : String)
    (hc : c ≠ "") (hvf : validCodeFormat (toUpperCase c) = true) :
    (∀ (store : List Letter) (lt : Letter),
      findActive store (toUpperCase c) now = some lt →
      fetchedReadCount (fetchLetter store now (some c)).1 =
        some (lt.read_count + 1)) ∧
    (∀ (lt : Letter) (rest : List Letter) (N : Nat),
      lt.code = toUpperCase c → now < lt.expires_at → lt.read_count = 0 →
      (∀ l ∈ rest, l.id ≠ lt.id) → 1 ≤ N →
      fetchedReadCount
        (fetchLetter (fetchTimes now (some c) (N - 1) (lt :: rest)) now
          (some c)).1 = some N) := by
  constructor
  · intro store lt hfind
    rw [fetchLetter_found store now c hc hvf lt hfind]
    rfl
  · intro lt rest N hcode hact hr0 hid hN
    obtain ⟨m, rfl⟩ : ∃ m, N = m + 1 := ⟨N - 1, by omega⟩
    rcases fetchTimes_head now c hc hvf m lt rest hcode hact hid with
      ⟨lt', h1, h2, h3, h4, h5⟩
    have hcode' : lt'.code = toUpperCase c := by rw [h2, hcode]
    have hact' : now < lt'.expires_at := by rw [h3]; exact hact
    have hid' : ∀ l ∈ rest, l.id ≠ lt'.id := by
      intro l hl
      rw [h4]
      exact hid l hl
    have hstep := fetch_head_step now c lt' rest hc hvf hcode' hact' hid'
    rw [Nat.add_sub_cancel, h1, hstep]
    show some (lt'.read_count + 1) = some (m + 1)
    rw [h5, hr0]
    simp

/-- C4, witness: three sequential fetches of a fresh active letter
report read count 3 on the third fetch. -/
theorem fetch_read_counts_witness :
    fetchedReadCount
      (fetchLetter (fetchTimes 0 (some "BBBBBB") (3 - 1) [activeL]) 0
        (some "BBBBBB")).1 = some 3 :=
  (fetch_read_counts 0 "BBBBBB" (by decide) (by decide)).2 activeL [] 3
    (by decide) (by decide) (by decide) (by simp) (by omega)

/-- Appending a fresh active letter to a store that does not hold its
code makes it the letter found under that code. -/
lemma findActive_append_fresh (store : List Letter) (nl : Letter) (now : Nat)
    (hfree : codeExists store nl.code = false) (hact : now < nl.expires_at) :
    findActive (store ++ [nl]) nl.code now = some nl := by
  unfold findActive
  rw [List.find?_append]
  have h1 : store.find?
      (fun l => l.code == nl.code && decide (now < l.expires_at)) = none := by
    rw [List.find?_eq_none]
    intro l hl hp
    rw [Bool.and_eq_true] at hp
    exact absurd hp.1 (by simpa using List.any_eq_false.1 hfree l hl)
  have hp : (nl.code == nl.code && decide (now < nl.expires_at)) = true := by
    simp [hact]
  rw [h1, Option.none_or, List.find?_singleton, if_pos hp]

/-- C5 (amended): creating a letter and immediately fetching the
returned code succeeds with read count 1, returning the trimmed
subject, the trimmed content and the derived sender name, i.e. the
stored forms of the supplied fields. -/
theorem create_then_fetch (store : List Letter) (now nextId : Nat)
    (draws : Nat → Fin 6 → Fin 36) (req : CreateReq)
    (hfree : codeExists store (generateCode (draws 0)) = false)
    (hvalid : createValid req = true) :
    (fetchLetter (createLetter store now nextId draws (fun _ => false) req).2 now
        (some (generateCode (draws 0)))).1 =
      FetchResult.ok
        { id := nextId
          code := generateCode (draws 0)
          subject := jsTrim (req.subject.getD "")
          content := jsTrim (req.content.getD "")
          senderName := cleanSenderName req.senderName
          dateCreated := now
          readCount := 1
          expiresAt := now + thirtyDays } := by
  rw [createLetter_success store now nextId draws req hfree hvalid]
  have hvf : validCodeFormat (toUpperCase (generateCode (draws 0))) = true := by
    rw [generateCode_toUpper]
    exact generateCode_valid _
  rw [show ((CreateResult.created (generateCode (draws 0)) nextId,
      store ++
        [{ id := nextId
           code := generateCode (draws 0)
           subject := jsTrim (req.subject.getD "")
           content := jsTrim (req.content.getD "")
           sender_name := cleanSenderName req.senderName
           created_at := now
           expires_at := now + thirtyDays
           read_count := 0
           last_read_at := none }]) : CreateResult × List Letter).2 =
      store ++
        [{ id := nextId
           code := generateCode (draws 0)
           subject := jsTrim (req.subject.getD "")
           content := jsTrim (req.content.getD "")
           sender_name := cleanSenderName req.senderName
           created_at := now
           expires_at := now + thirtyDays
           read_count := 0
           last_read_at := none }] from rfl]
  rw [fetchLetter_some _ now (generateCode (draws 0))
    (generateCode_ne_empty _) hvf]
  have hfind := findActive_append_fresh store
    { id := nextId
      code := generateCode (draws 0)
      subject := jsTrim (req.subject.getD "")
      content := jsTrim (req.content.getD "")
      sender_name := cleanSenderName req.senderName
      created_at := now
      expires_at := now + thirtyDays
      read_count := 0
      last_read_at := none } now hfree
    (Nat.lt_add_of_pos_right (by decide))
  rw [generateCode_toUpper, hfind]

/-- C5, counterexample: a create whose senderName is " Sam " succeeds,
but the immediately fetched letter carries senderName "Sam": the
stored fields are the trimmed forms, not the supplied strings. -/
theorem create_then_fetch_not_verbatim :
    (fetchLetter (createLetter [] 0 1 (fun _ _ => (0 : Fin 36)) (fun _ => false)
        { subject := some "Hi"
          content := some "Hello there"
          senderName := some " Sam " }).2 0 (some "AAAAAA")).1 =
      FetchResult.ok
        { id := 1
          code := "AAAAAA"
          subject := "Hi"
          content := "Hello there"
          senderName := "Sam"
          dateCreated := 0
          readCount := 1
          expiresAt := thirtyDays } ∧
    ("Sam" : String) ≠ " Sam " := by
  constructor
  · decide
  · decide

/-- C5, witness for the amended theorem: the worked example with
subject Hi, content Hello there and sender Sam. -/
theorem create_then_fetch_witness :
    createValid { subject := some "Hi"
                  content := some "Hello there"
                  senderName := some "Sam" } = true ∧
    (fetchLetter (createLetter [] 0 1 (fun _ _ => (0 : Fin 36)) (fun _ => false)
        { subject := some "Hi"
          content := some "Hello there"
          senderName := some "Sam" }).2 0
        (some (generateCode ((fun _ _ => (0 : Fin 36)) 0)))).1 =
      FetchResult.ok
        { id := 1
          code := generateCode ((fun _ _ => (0 : Fin 36)) 0)
          subject := jsTrim ((some "Hi").getD "")
          content := jsTrim ((some "Hello there").getD "")
          senderName := cleanSenderName (some "Sam")
          dateCreated := 0
          readCount := 1
          expiresAt := 0 + thirtyDays } :=
  ⟨by decide,
    create_then_fetch [] 0 1 (fun _ _ => (0 : Fin 36))
      { subject := some "Hi"
        content := some "Hello there"
        senderName := some "Sam" } (by decide) (by decide)⟩

end RetroMail
